import Mathlib

/-!
# Verification of the fabulous-json pretty-printing engine

This file gives a shallow embedding in Lean 4 of `src/index.ts` of the
`fabulous-json` repository: a JSON stringifier with inline, table and
compact-grid layout.  Every definition below is translated directly from the
TypeScript source; deviations forced by the host language are recorded in
doc comments:

* JavaScript numbers are modelled as exact rationals (option values) and as
  integers (`Int`) for numeric leaves of the input tree.  Floating point
  rounding is outside the model.
* JavaScript strings are modelled as Lean `String` (lists of unicode
  scalar values); lengths count scalar values rather than UTF-16 code units.
* The unbounded JavaScript call stack is modelled by an explicit fuel
  parameter; running out of fuel corresponds to the engine exceeding the
  stack (`JsError.stackOverflow`).  All concrete inputs in this file are
  far below the limit.
* A JavaScript function returning `undefined`, or returning `null`, is
  modelled by `ProcOut.nullish`; reading a property of such a result
  throws `JsError.typeError`, as in JavaScript.
-/

set_option maxHeartbeats 1000000
set_option maxRecDepth 100000

deriving instance DecidableEq for Except

namespace FabJson

/-- The input value tree: JavaScript values as seen by `stringify`.
`undefined` and `func` are the two unrepresentable kinds (`undefined` and
function values). Numbers are modelled as integers. -/
inductive JValue where
  | null
  | bool (b : Bool)
  | num (n : Int)
  | str (s : String)
  | bigint (n : Int)
  | arr (items : List JValue)
  | obj (fields : List (String × JValue))
  | undefined
  | func
deriving Repr

/-- Errors a call can throw.  `config` models the `new Error(...)` option
validation failures (the source messages contain quote characters that are
dropped here); `typeError` models reading a property of `undefined`/`null`
and the `JSON.stringify` BigInt rejection; `rangeError` models
`String.prototype.repeat` with a negative count; `stackOverflow` models
exhausting the call stack (the fuel). -/
inductive JsError where
  | config (msg : String)
  | typeError
  | rangeError
  | stackOverflow
deriving Repr, DecidableEq

/-- Result of `processValue`: either the `{ result, nested }` record the
source builds, or `nullish` for the code paths that leave the function via
`return null` or by falling off the end (returning `undefined`). -/
inductive ProcOut where
  | out (result : String) (nested : Bool)
  | nullish
deriving Repr, DecidableEq

/-- Strict comparison of exact rationals, as a kernel-computable Boolean
(the Mathlib arithmetic on `ℚ` is irreducible and cannot be evaluated by
`decide`; `Rat.blt` can). -/
def qLt (a b : ℚ) : Bool := a.blt b

/-- Non-strict comparison of exact rationals (kernel-computable). -/
def qLe (a b : ℚ) : Bool := !(b.blt a)

/-- Kernel-computable product of exact rationals. -/
def qMul (a b : ℚ) : ℚ := mkRat (a.num * b.num) (a.den * b.den)

/-- Kernel-computable difference of exact rationals. -/
def qSub (a b : ℚ) : ℚ := mkRat (a.num * (b.den : Int) - b.num * (a.den : Int)) (a.den * b.den)

/-- Kernel-computable quotient of exact rationals (zero divisor gives 0,
as in Mathlib; no division by zero occurs in the engine). -/
def qDiv (a b : ℚ) : ℚ :=
  mkRat (a.num * (b.den : Int) * (if b.num < 0 then -1 else 1)) (a.den * b.num.natAbs)

/-- `Math.min` on exact rationals. -/
def qMin (a b : ℚ) : ℚ := if a.blt b then a else b

/-- `Math.max` on exact rationals. -/
def qMax (a b : ℚ) : ℚ := if a.blt b then b else a

/-- `typeof v === 'object'` (true for `null`, arrays and plain objects). -/
def typeofObject : JValue → Bool
  | .null | .arr _ | .obj _ => true
  | _ => false

/-- `typeof v === 'undefined' || typeof v === 'function'`. -/
def isUnrepresentable : JValue → Bool
  | .undefined | .func => true
  | _ => false

/-- Lowercase hexadecimal digit. -/
def hexDigit (n : Nat) : Char :=
  if n < 10 then Char.ofNat (48 + n) else Char.ofNat (87 + n)

/-- Four lowercase hex digits, as in the `\uXXXX` escapes of
`JSON.stringify`. -/
def hex4 (n : Nat) : String :=
  ⟨[hexDigit (n / 4096 % 16), hexDigit (n / 256 % 16),
    hexDigit (n / 16 % 16), hexDigit (n % 16)]⟩

/-- One character of the ECMAScript `QuoteJSONString` algorithm. -/
def escChar (c : Char) : List Char :=
  if c = '"' then ['\\', '"']
  else if c = '\\' then ['\\', '\\']
  else if c = '\x08' then ['\\', 'b']
  else if c = '\x0c' then ['\\', 'f']
  else if c = '\n' then ['\\', 'n']
  else if c = '\x0d' then ['\\', 'r']
  else if c = '\t' then ['\\', 't']
  else if c.toNat < 32 then '\\' :: 'u' :: (hex4 c.toNat).data
  else [c]

/-- `JSON.stringify` applied to a string value: quote and escape. -/
def quoteJSONString (s : String) : String :=
  ⟨'"' :: (s.data.flatMap escChar) ++ ['"']⟩

/-- `JSON.stringify` / `Number::toString` on an integer number. -/
def renderNum (n : Int) : String := toString n

/-- `' '.repeat n` for a known-nonnegative count. -/
def spacesN (n : Nat) : String := ⟨List.replicate n ' '⟩

/-- `' '.repeat x` with JavaScript semantics: a negative count throws a
`RangeError`. -/
def repSpaces (x : Int) : Except JsError String :=
  if x < 0 then .error .rangeError else .ok (spacesN x.toNat)

/-- `s.repeat n` (used for `indent.repeat(depth)`). -/
def strRepeat (s : String) (n : Nat) : String :=
  ⟨(List.replicate n s.data).flatten⟩

/-- `s.includes('\n')`, the only `includes` the source uses. -/
def hasNL (s : String) : Bool := s.data.contains '\n'

/-- Monadic left fold with an explicit initial accumulator, used to
translate the imperative accumulation loops of the source. -/
def foldAcc [Monad m] (init : s) (l : List α) (f : s → α → m s) : m s :=
  l.foldlM f init

/-- `Array.prototype.join(sep)`. -/
def joinSep (sep : String) (l : List String) : String :=
  match l with
  | [] => ""
  | h :: t => t.foldl (fun acc x => acc ++ sep ++ x) h

/-- Keep the first occurrence of each element (`Array.from(new Set(..))`). -/
def dedupKeepFirst (l : List String) : List String :=
  (l.foldl (fun acc x => if acc.contains x then acc else x :: acc) []).reverse

/-- Parse a canonical array-index property name (`"0"`, `"17"`, ... with no
leading zeros), used for the ECMAScript own-property ordering. -/
def parseIdx (s : String) : Option Nat :=
  match s.data with
  | [] => none
  | ['0'] => some 0
  | c :: _ =>
    if c = '0' then none
    else if s.data.all (fun d => '0' ≤ d ∧ d ≤ '9') then
      some (s.data.foldl (fun acc d => acc * 10 + (d.toNat - 48)) 0)
    else none

/-- Stable insertion into a sorted prefix: `x` goes after every `y` with
`le y x`. -/
def insertSorted (le : α → α → Bool) (x : α) : List α → List α
  | [] => [x]
  | y :: ys => if le y x then y :: insertSorted le x ys else x :: y :: ys

/-- A stable sort (insertion sort).  It models the stable
`Array.prototype.sort` of V8 (TimSort); for a comparator that induces a
total preorder the two agree, which covers every comparator the source
uses. -/
def stableSort (le : α → α → Bool) (l : List α) : List α :=
  l.foldl (fun acc x => insertSorted le x acc) []

/-- ECMAScript own-property order for a list of distinct string keys:
canonical integer indices first in ascending numeric order, then the
remaining keys in insertion order. -/
def jsPropOrder (ks : List String) : List String :=
  let withIdx := ks.filterMap (fun k => (parseIdx k).map (fun n => (n, k)))
  let ints := (stableSort (fun a b => a.1 ≤ b.1) withIdx).map (·.2)
  let rest := ks.filter (fun k => parseIdx k = none)
  ints ++ rest

/-- `Object.keys` on the field list of an object literal: duplicate keys
keep their first position (the later value wins), and keys are returned in
ECMAScript own-property order. -/
def jsObjectKeys (fields : List (String × JValue)) : List String :=
  jsPropOrder (dedupKeepFirst (fields.map (·.1)))

/-- Property lookup on an object literal field list: the last binding of a
key wins; absent keys give `undefined`. -/
def objGet (fields : List (String × JValue)) (k : String) : JValue :=
  match fields.reverse.find? (fun p => p.1 = k) with
  | some p => p.2
  | none => .undefined

/-- `Object.values`. -/
def jsObjectValues (fields : List (String × JValue)) : List JValue :=
  (jsObjectKeys fields).map (objGet fields)

/-- `Object.keys v` for any value the source applies it to (plain objects
and arrays; arrays expose their indices). -/
def jsKeysOf : JValue → List String
  | .obj fields => jsObjectKeys fields
  | .arr items => (List.range items.length).map (fun i => toString i)
  | _ => []

/-- `key in v`: own-property membership.  Prototype-chain properties are not
modelled (the engine only queries keys drawn from `Object.keys` of sibling
values). Arrays answer their index range and `"length"`. -/
def jsHasKey (v : JValue) (k : String) : Bool :=
  match v with
  | .obj fields => (fields.map (·.1)).contains k
  | .arr items =>
    (match parseIdx k with
     | some i => i < items.length
     | none => k = "length")
  | _ => false

/-- `e?.[k]` for a string key: optional-chained property access, as used by
`tableOfObjects` to extract a column.  Arrays expose their indices and
`length`; nullish and primitive receivers give `undefined`. -/
def jsGetProp (v : JValue) (k : String) : JValue :=
  match v with
  | .obj fields => objGet fields k
  | .arr items =>
    (match parseIdx k with
     | some i => items.getD i .undefined
     | none => if k = "length" then .num items.length else .undefined)
  | _ => .undefined

/-- `e?.[i]` for a numeric index `i`, as used by `tableOfArrays` to extract
a column. -/
def jsIndex (v : JValue) (i : Nat) : JValue :=
  jsGetProp v (toString i)

/-- `!Number.isNaN(Number(s))` restricted to the strings the table cell
renderer can produce (JSON scalar and inline-container texts): the
ECMAScript decimal `StringNumericLiteral` grammar, plus the empty string
and `Infinity` forms.  Hex/octal/binary literals never occur in cells and
are not modelled. -/
def jsIsNumericString (s : String) : Bool :=
  let body := s.data.dropWhile (· = ' ') |>.reverse.dropWhile (· = ' ') |>.reverse
  let isDigit : Char → Bool := fun c => '0' ≤ c && c ≤ '9'
  let unsigned : List Char → Bool := fun cs =>
    cs = "Infinity".data ||
    (let (ip, rest) := cs.span isDigit
     let (fp, rest2) :=
       match rest with
       | '.' :: r => let (f, r2) := r.span isDigit; (f, r2)
       | _ => ([], rest)
     let expOk :=
       match rest2 with
       | [] => true
       | e :: r3 =>
         (e = 'e' || e = 'E') &&
         (let r4 := match r3 with
                    | c :: r5 => if c = '+' || c = '-' then r5 else r3
                    | [] => r3
          r4 ≠ [] && r4.all isDigit)
     (ip ≠ [] || fp ≠ []) && expOk)
  match body with
  | [] => true
  | c :: rest => if c = '+' || c = '-' then unsigned rest else unsigned body

/-- Source `sum`. -/
def listSum (ns : List Nat) : Nat := ns.foldl (· + ·) 0

/-- Source `arrMin` (callers always pass a non-empty array; the empty case
is unreachable and returns 0). -/
def arrMin (ns : List Nat) : Nat :=
  match ns with
  | [] => 0
  | h :: t => t.foldl Nat.min h

/-- Source `arrMax` (callers always pass a non-empty array; the empty case
is unreachable and returns 0). -/
def arrMax (ns : List Nat) : Nat :=
  match ns with
  | [] => 0
  | h :: t => t.foldl Nat.max h

/-- Source `getColumnWidths`: `Map.groupBy(lengths, (_, i) => i % c)`
produces the groups keyed `0, 1, ..., min c n - 1` in first-occurrence
order; each column width is the max of its group. -/
def getColumnWidths (lengths : List Nat) (columnCount : Nat) : List Nat :=
  (List.range (Nat.min columnCount lengths.length)).map (fun j =>
    arrMax ((lengths.enum.filter (fun p => p.1 % columnCount = j)).map (·.2)))

/-- The loop of source `joinColumns`: `prev` is `items[i-1]`, whose column
width heads the width list; each step appends
`',' + ' '.repeat(width - prev.length + 1) + cur`.  At every call site the
widths are the column maxima of the very lengths being padded, so the
repeat count is nonnegative and truncated subtraction models it; a width
list running short (unreachable) pads with nothing, as `repeat(NaN)`
would. -/
def jcGo : String → List String → List Nat → String
  | _, [], _ => ""
  | prev, cur :: rest, w :: ws =>
    "," ++ spacesN (w - prev.length + 1) ++ cur ++ jcGo cur rest ws
  | _, cur :: rest, [] => "," ++ cur ++ jcGo cur rest []

/-- Source `joinColumns`. -/
def joinColumns (items : List String) (columnWidths : List Nat) : String :=
  match items with
  | [] => ""
  | first :: rest => first ++ jcGo first rest columnWidths

/-- Split a string at newline characters (for stating per-line facts about
rendered output). -/
def splitNL : List Char → List (List Char)
  | [] => [[]]
  | c :: cs =>
    let r := splitNL cs
    if c = '\n' then [] :: r
    else
      match r with
      | [] => [[c]]
      | h :: t => (c :: h) :: t

/-- The lines of a rendered string. -/
def splitLines (s : String) : List String := (splitNL s.data).map String.mk

/-- Scan upward for the integer square root: the largest `k ≤ fuel + start`
with `k * k ≤ n`, starting from a `start` with `start * start ≤ n`. -/
def floorSqrtGo (n : Nat) : Nat → Nat → Nat
  | 0, k => k
  | fl + 1, k => if (k + 1) * (k + 1) ≤ n then floorSqrtGo n fl (k + 1) else k

/-- Integer square root by upward scan (kernel-computable; `k + 1 ≤ (k+1)²`
makes `n` steps always enough). -/
def floorSqrt (n : Nat) : Nat := floorSqrtGo n n 0

/-- `Math.ceil(Math.sqrt n)` (exact; float rounding not modelled). -/
def ceilSqrt (n : Nat) : Nat :=
  if floorSqrt n * floorSqrt n = n then floorSqrt n else floorSqrt n + 1

/-- Total row width of a `c`-column grid: the quantity the binary search in
`findMaxItemsWide` compares against the line budget
(`sum(columnWidths) + (mid - 1) * 2` in the source). -/
def gridWidth (lengths : List Nat) (c : Nat) : Nat :=
  listSum (getColumnWidths lengths c) + (c - 1) * 2

/-- The fit test of the binary search: `totalWidth <= maxLineLength`. -/
def gridFits (lengths : List Nat) (maxLineLength : ℚ) (c : Nat) : Bool :=
  qLe (gridWidth lengths c : ℚ) maxLineLength

/-- The `while (low <= high)` loop of source `findMaxItemsWide`, as a
structural recursion on an iteration budget (the interval shrinks by at
least one per iteration, so any budget larger than the initial interval is
enough; `findMaxItemsWide` passes one).  `low`/`high` are integers
(JavaScript lets `high` reach -1); `best` and the cached
`bestColumnWidths` are the loop accumulators.  In every reachable state
`1 ≤ low`, so `Math.floor((low+high)/2)` agrees with truncated integer
division. -/
def fmwGo (lengths : List Nat) (maxLineLength : ℚ) :
    Nat → (low high : Int) → (best : Nat) → (bw : Option (List Nat)) →
    Nat × Option (List Nat)
  | 0, _, _, best, bw => (best, bw)
  | iter + 1, low, high, best, bw =>
    if low ≤ high then
      if gridFits lengths maxLineLength ((low + high) / 2).toNat then
        fmwGo lengths maxLineLength iter ((low + high) / 2 + 1) high
          ((low + high) / 2).toNat
          (some (getColumnWidths lengths ((low + high) / 2).toNat))
      else
        fmwGo lengths maxLineLength iter low ((low + high) / 2 - 1) best bw
    else
      (best, bw)

/-- Source `findMaxItemsWide`: binary search for the widest grid. -/
def findMaxItemsWide (items : List String) (itemLengths : List Nat)
    (maxLineLength : ℚ) : Nat × List Nat :=
  let (best, bw) := fmwGo itemLengths maxLineLength (ceilSqrt items.length + 1)
    1 (ceilSqrt items.length) 1 none
  (best, bw.getD (getColumnWidths itemLengths best))

/-- Source `decimalAlignment`.  Cells are sparse (`none` = the `undefined`
entries the source skips).  `d = indexOf('.')` is used when positive,
otherwise the cell length. -/
def decimalAlignment (numbers : List (Option String)) : List (Option String) :=
  let dIdx : List (Option Nat) := numbers.map (fun c =>
    c.map (fun n =>
      match n.data.findIdx? (· = '.') with
      | some d => if 0 < d then d else n.length
      | none => n.length))
  let maxDecimalIndex := dIdx.foldl (fun m d => Nat.max m (d.getD 0)) 0
  numbers.zip dIdx |>.map (fun (c, d) =>
    match c, d with
    | some n, some di => some (spacesN (maxDecimalIndex - di) ++ n)
    | _, _ => none)

/-- Source `anyCommon`. -/
def anyCommon (a b : List String) : Bool := a.any (fun x => b.contains x)

/-- The before/after observation sets of one key, accumulated over all
sibling rows (source lines building `keyPositions`): everything seen
strictly before (resp. after) the key in any row containing it.  The sets
are queried only through `has`, so they are modelled as deduplicated
lists. -/
def keyObs (keysPerRow : List (List String)) (key : String) :
    List String × List String :=
  let gather := fun (pick : List String → Nat → List String) =>
    dedupKeepFirst (keysPerRow.flatMap (fun row =>
      match row.findIdx? (· = key) with
      | some idx => pick row idx
      | none => []))
  (gather (fun row idx => row.take idx),
   gather (fun row idx => row.drop (idx + 1)))

/-- Source `getTableColumnOrder`.  Returns the column order, or `none` for
every `return null` path.  The final `.sort(...)` with a numeric comparator
is modelled as a stable merge sort (V8 uses the stable TimSort); the
comparator is translated verbatim. -/
def getTableColumnOrder (table : JValue) (maxObjectProperties : ℚ)
    (tableMinSharedKeys : ℚ) : Option (List String) :=
  let rawValues :=
    match table with
    | .arr items => some items
    | .obj fields => some (jsObjectValues fields)
    | _ => none
  match rawValues with
  | none => none
  | some raw =>
    let values := raw.filter (fun el => !(isUnrepresentable el))
    if values.length ≤ 1 then none
    else
      match values.head? with
      | some (.arr a0) =>
        if values.all (fun el =>
            match el with
            | .arr l => l.length = a0.length
            | _ => false) then
          some ((List.range a0.length).map (fun i => toString i))
        else none
      | _ =>
        if values.any (fun v => !(typeofObject v) || (match v with | .null => true | _ => false)) then
          none
        else
          let keys := values.map jsKeysOf
          if keys.any (fun ik => qLt maxObjectProperties (ik.length : ℚ)) then none
          else
            let allKeys := dedupKeepFirst keys.flatten
            let sharedKeys := allKeys.filter (fun key => values.all (fun v => jsHasKey v key))
            if qLt (sharedKeys.length : ℚ) (qMin tableMinSharedKeys (allKeys.length : ℚ)) then
              none
            else
              -- the `for (let j = 1; ...)` loop never fills in the sets of
              -- allKeys[0], which stay empty
              let keyPositions : List (String × List String × List String) :=
                allKeys.enum.map (fun (j, key) =>
                  if j = 0 then (key, [], []) else (key, keyObs keys key))
              if keyPositions.any (fun kp => anyCommon kp.2.1 kp.2.2) then none
              else
                -- `Object.fromEntries` re-orders integer-like keys; then
                -- `Object.entries(..).sort(cmp).map(fst)`
                let ordered := (jsPropOrder allKeys).filterMap (fun k =>
                  (keyPositions.find? (fun kp => kp.1 = k)).map (fun kp => kp))
                let toInt : Bool → Int := fun b => if b then 1 else 0
                let cmp := fun (a b : String × List String × List String) =>
                  toInt (a.2.1.contains b.1) - toInt (b.2.1.contains a.1)
                    + toInt (b.2.2.contains a.1) - toInt (a.2.2.contains b.1)
                some ((stableSort (fun a b => cmp a b ≤ 0) ordered).map (·.1))

/-- The `replace` callback, with the implicit `this` receiver made an
explicit first (parent) argument, per the source binding
`replaceFunc.bind(parentObj)(key, val)`. -/
def ReplaceFn : Type := JValue → String → JValue → JValue

/-- The `allowInline` / `allowTable` callbacks, with the `this` receiver
made an explicit first argument. -/
def PermitFn : Type := JValue → String → JValue → Bool

/-- A callback-valued option slot of the options object: absent from the
object, present but not a function (`invalid`, which includes a present
`undefined`), or a function. -/
inductive CallbackOpt (α : Type) where
  | absent
  | invalid
  | fn (f : α)

/-- `'name' in options && typeof options.name !== 'function'`. -/
def CallbackOpt.isInvalid : CallbackOpt α → Bool
  | .invalid => true
  | _ => false

/-- The function value, if one was supplied (`options?.name` when it is
callable). -/
def CallbackOpt.toFn : CallbackOpt α → Option α
  | .fn f => some f
  | _ => none

/-- The `indent` option: absent/`undefined`, `null`, a number (modelled as
an integer; `String.prototype.repeat` truncates fractions), or a string. -/
inductive IndentOpt where
  | absent
  | nullv
  | num (n : Int)
  | str (s : String)

/-- The options object of `stringify` (source `StringifyOptions`).
Numeric options are exact rationals standing in for JS numbers. -/
structure StringifyOptions where
  replace : CallbackOpt ReplaceFn
  indent : IndentOpt
  allowInline : CallbackOpt PermitFn
  maxLineLength : Option ℚ
  maxArrayItems : Option ℚ
  maxObjectProperties : Option ℚ
  maxArrayItemLength : Option ℚ
  compactLongArrays : Option Bool
  allowTable : CallbackOpt PermitFn
  tables : Option Bool
  tableArrays : Option Bool
  tableObjects : Option Bool
  tableMinSharedKeys : Option ℚ
  tablePadEndOfRows : Option Bool
  tableDecimalAlignment : Option Bool

/-- The all-absent options object (`stringify(value)` / `stringify(value, {})`). -/
def noOptions : StringifyOptions :=
  ⟨.absent, .absent, .absent, none, none, none, none, none, .absent,
   none, none, none, none, none, none⟩

/-- The effective (defaulted) option values the closures of `stringify`
capture (source lines 139-156 and 170-172). -/
structure Eff where
  maxLineLength : ℚ
  maxArrayItems : ℚ
  maxObjectProperties : ℚ
  maxArrayItemLength : ℚ
  compactLongArrays : Bool
  tableArrays : Bool
  tableObjects : Bool
  tableMinSharedKeys : ℚ
  tablePadEndOfRows : Bool
  tableDecimalAlignment : Bool
  indent : String
  rep : Option ReplaceFn
  allowInline : Option PermitFn
  allowTable : Option PermitFn

/-- The effective indent string (source lines 152-156): `null` gives the
empty string, a number is clamped to [0, 10] spaces, a string is truncated
to its first 10 characters, anything else defaults to two spaces. -/
def effectiveIndent : IndentOpt → String
  | .nullv => ""
  | .num n => spacesN (Int.toNat (max 0 (min 10 n)))
  | .str s => ⟨s.data.take 10⟩
  | .absent => "  "

/-- The defaulted option record built by `stringify` (source lines
139-156, 170-172). -/
def mkEff (o : StringifyOptions) : Eff :=
  let maxLineLength := o.maxLineLength.getD 100
  let tables := o.tables.getD true
  { maxLineLength := maxLineLength
    maxArrayItems := o.maxArrayItems.getD 6
    maxObjectProperties := o.maxObjectProperties.getD 6
    maxArrayItemLength := o.maxArrayItemLength.getD (qDiv maxLineLength 2)
    compactLongArrays := o.compactLongArrays.getD true
    tableArrays := tables && o.tableArrays.getD true
    tableObjects := tables && o.tableObjects.getD true
    tableMinSharedKeys := o.tableMinSharedKeys.getD 1
    tablePadEndOfRows := o.tablePadEndOfRows.getD true
    tableDecimalAlignment := o.tableDecimalAlignment.getD true
    indent := effectiveIndent o.indent
    rep := o.replace.toFn
    allowInline := o.allowInline.toFn
    allowTable := o.allowTable.toFn }

/-- Source `formatArray` (lines 460-497): inline attempt, then the
compact-grid attempt for long uniform arrays, then one item per line. -/
def formatArray (E : Eff) (items : List String) (depth : Nat)
    (nestedItems : Bool) (keyLength : Nat) (allowInlineHere : Bool) : String :=
  if items.isEmpty then "[]" else
  let line := "[ " ++ joinSep ", " items ++ " ]"
  if allowInlineHere && !nestedItems &&
     qLe (items.length : ℚ) E.maxArrayItems &&
     items.all (fun item => qLe (item.length : ℚ) E.maxArrayItemLength) &&
     qLe ((keyLength + line.length : Nat) : ℚ) E.maxLineLength &&
     !hasNL line then
    line
  else
    let arrIndent := strRepeat E.indent (depth + 1)
    let plain := "[\n" ++ arrIndent ++ joinSep (",\n" ++ arrIndent) items ++
      "\n" ++ strRepeat E.indent depth ++ "]"
    if E.compactLongArrays && qLt E.maxArrayItems (items.length : ℚ) &&
       items.all (fun item =>
         !hasNL item && item.data.head? ≠ some '[' && item.data.head? ≠ some '{') then
      let itemLengths := items.map String.length
      let mn := arrMin itemLengths
      let mx := arrMax itemLengths
      let mean : ℚ := qDiv (listSum itemLengths : ℚ) (items.length : ℚ)
      if qLt (qSub (mx : ℚ) (mn : ℚ)) (qMax 4 (qMul mean (qDiv 1 4))) then
        let wides := findMaxItemsWide items itemLengths E.maxLineLength
        let itemsWide := wides.1
        let columnWidths := wides.2
        let rowCount := (items.length + itemsWide - 1) / itemsWide
        "[\n" ++ arrIndent ++
          joinSep (",\n" ++ arrIndent)
            ((List.range rowCount).map (fun i =>
              joinColumns ((items.drop (i * itemsWide)).take itemsWide) columnWidths)) ++
          "\n" ++ strRepeat E.indent depth ++ "]"
      else plain
    else plain

/-- Source `formatObject` (lines 499-515). -/
def formatObject (E : Eff) (items : List String) (depth : Nat)
    (nestedItems : Bool) (keyLength : Nat) (allowInlineHere : Bool) : String :=
  if items.isEmpty then "\x7b\x7d" else
  let line := "\x7b " ++ joinSep ", " items ++ " \x7d"
  if allowInlineHere && !nestedItems &&
     qLe (items.length : ℚ) E.maxObjectProperties &&
     qLe ((keyLength + line.length : Nat) : ℚ) E.maxLineLength &&
     !hasNL line then
    line
  else
    let objIndent := strRepeat E.indent (depth + 1)
    "\x7b\n" ++ objIndent ++ joinSep (",\n" ++ objIndent) items ++
      "\n" ++ strRepeat E.indent depth ++ "\x7d"

/-- Source `replaceArrayItems` (lines 305-312). -/
def replaceArrayItems (f : ReplaceFn) (items : List JValue) : List JValue :=
  items.enum.map (fun p => f (.arr items) (toString p.1) p.2)

/-- Source `replaceObjectProperties` (lines 295-303): only the given
(already filtered) keys are carried over. -/
def replaceObjectProperties (f : ReplaceFn) (fields : List (String × JValue))
    (keys : List String) : List (String × JValue) :=
  keys.map (fun k => (k, f (.obj fields) k (objGet fields k)))

/-- `Array.isArray(rval[keys[0]])` in the object-table attempt of
`processValue`: whether the table rows are arrays (`keys` is never empty
when a column order exists, so the `headD` default is unreachable). -/
def objTableIsArray (rvalFields : List (String × JValue)) (keys : List String) : Bool :=
  match objGet rvalFields (keys.headD "undefined") with
  | .arr _ => true
  | _ => false

/-- `Array.isArray(column.find(e => e !== undefined))`. -/
def firstDefinedIsArray (column : List JValue) : Bool :=
  match column.find? (fun e => match e with | .undefined => false | _ => true) with
  | some (.arr _) => true
  | _ => false

/-- `rowArrs[i].length` in the row assembly of `tableOfArrays`: array rows
report their length (non-array rows are unreachable there except
functions, whose arity the model fixes at 0). -/
def jsArrLength : JValue → Nat
  | .arr items => items.length
  | _ => 0

/-- `columnOrder.findLastIndex(e => e in rowObjs[i])` (−1 when absent). -/
def jsFindLastIndex (l : List String) (p : String → Bool) : Int :=
  match (l.enum.filter (fun q => p q.2)).reverse.head? with
  | some q => (q.1 : Int)
  | none => -1

/-- Reading `.result` off the value returned by `processValue`: throws a
`TypeError` when the source returned `null`/`undefined`. -/
def outResult : ProcOut → Except JsError String
  | .out r _ => .ok r
  | .nullish => .error .typeError

/-- Outcome of the labelled `table:` block in the object branch of
`processValue`: a rendered table, fall-through (`break table`), or the
`return null` on line 251 that aborts `processValue` itself. -/
inductive TableOutcome where
  | table (s : String)
  | fall
  | abortNull

/-- Outcome of the sub-table attempt for one column inside
`tableOfArrays` / `tableOfObjects`: the whole table aborts (`return null`
on the column-count ceiling), the column is a sub-table, or it is a plain
column. -/
inductive SubOutcome where
  | abort
  | sub (rows : List String)
  | notSub

/-- One column of a table: its width accumulator (`none` when never set,
mirroring `columnWidths[i]` staying `undefined`) and its sparse cells. -/
def TableCol : Type := Option Nat × List (Option String)

mutual

/-- Source `processValue` (lines 174-293).  The fuel argument models the
JavaScript call stack; every mutual function consumes one unit per
activation.  Scalars are rendered directly (`JSON.stringify` throws a
`TypeError` on BigInt); `undefined`/function values fall off the end of
the source function, modelled as `nullish`.  `toJSON` conversion methods
are not part of `JValue` and do not arise. -/
def processValue (E : Eff) : Nat → String → JValue → Nat → JValue → Nat → Bool →
    Except JsError ProcOut
  | 0, _, _, _, _, _, _ => .error .stackOverflow
  | fuel + 1, key, val0, depth, parentObj, keyLength, allowTables =>
    let val := match E.rep with
      | some f => f parentObj key val0
      | none => val0
    match val with
    | .null => .ok (.out "null" false)
    | .str s => .ok (.out (quoteJSONString s) false)
    | .num n => .ok (.out (renderNum n) false)
    | .bigint _ => .error .typeError
    | .bool b => .ok (.out (if b then "true" else "false") false)
    | .undefined => .ok .nullish
    | .func => .ok .nullish
    | .arr items => processArr E fuel key items depth parentObj keyLength allowTables
    | .obj fields => processObj E fuel key fields depth parentObj keyLength allowTables
  termination_by structural fuel => fuel


/-- The `Array.isArray(val)` branch of `processValue` (lines 206-241);
`val = .arr items` is the (possibly replaced) value. -/
def processArr (E : Eff) : Nat → String → List JValue → Nat → JValue → Nat → Bool →
    Except JsError ProcOut
  | 0, _, _, _, _, _, _ => .error .stackOverflow
  | fuel + 1, key, items, depth, parentObj, keyLength, allowTables => do
    let val := JValue.arr items
    let tbl : Option String ←
      if E.tableArrays && allowTables &&
         (match E.allowTable with
          | none => true
          | some f => f parentObj key val) then do
        let rval := match E.rep with
          | some f => replaceArrayItems f items
          | none => items
        match getTableColumnOrder (.arr rval) E.maxObjectProperties E.tableMinSharedKeys with
        | some columnOrder => do
          let tblItems ←
            match rval.head? with
            | some (.arr _) => tableOfArrays E fuel rval columnOrder.length
            | _ => tableOfObjects E fuel rval columnOrder
          match tblItems with
          | some ti =>
            if ti.all (fun e => qLe (e.length : ℚ) E.maxLineLength) then
              pure (some (formatArray E ti depth true keyLength true))
            else pure none
          | none => pure none
        | none => pure none
      else pure none
    match tbl with
    | some s => return .out s true
    | none => do
      let st ← foldAcc (([] : List String), false, false, 0) items
        (fun acc item => do
          let processed ← processValue E fuel (toString acc.2.2.2) item (depth + 1) val 0 true
          let r ← outResult processed
          pure (acc.1 ++ [r],
                acc.2.1 || typeofObject item,
                acc.2.2.1 || (acc.2.1 && typeofObject item),
                acc.2.2.2 + 1))
      let ai := match E.allowInline with
        | none => true
        | some f => f parentObj key val
      return .out (formatArray E st.1 depth st.2.2.1 keyLength ai) st.2.1
  termination_by structural fuel => fuel


/-- The plain-object branch of `processValue` (lines 243-292), including
the labelled `table:` block whose `return null` (line 251) escapes
`processValue` itself. -/
def processObj (E : Eff) : Nat → String → List (String × JValue) → Nat → JValue → Nat → Bool →
    Except JsError ProcOut
  | 0, _, _, _, _, _, _ => .error .stackOverflow
  | fuel + 1, key, fields, depth, parentObj, keyLength, allowTables => do
    let val := JValue.obj fields
    let keys := (jsObjectKeys fields).filter (fun k =>
      !(isUnrepresentable (objGet fields k)))
    let tbl : TableOutcome ←
      if E.tableObjects && allowTables &&
         (match E.allowTable with
          | none => true
          | some f => f parentObj key val) then do
        let rvalFields := match E.rep with
          | some f => replaceObjectProperties f fields keys
          | none => fields
        match getTableColumnOrder (.obj rvalFields) E.maxObjectProperties E.tableMinSharedKeys with
        | some columnOrder => do
          let isArray := objTableIsArray rvalFields keys
          if qLt (if isArray then E.maxArrayItems else E.maxObjectProperties) (columnOrder.length : ℚ) then
            pure TableOutcome.abortNull
          else do
            let jsonKeys := keys.map quoteJSONString
            let keyColumnWidth := arrMax (jsonKeys.map String.length) + 1
            let tblItems ←
              if isArray then tableOfArrays E fuel (jsObjectValues rvalFields) columnOrder.length
              else tableOfObjects E fuel (jsObjectValues rvalFields) columnOrder
            match tblItems with
            | none => pure TableOutcome.fall
            | some its => do
              let padded ← its.enum.mapM (fun p => do
                match jsonKeys.get? p.1 with
                | none => throw JsError.typeError  -- `jsonKeys[i].length` on undefined
                | some jk => do
                  let pad ← repSpaces ((keyColumnWidth : Int) - (jk.length : Int))
                  pure (jk ++ ":" ++ pad ++ p.2))
              if padded.any (fun e => qLt E.maxLineLength (e.length : ℚ)) then
                pure TableOutcome.fall
              else
                pure (TableOutcome.table (formatObject E padded depth true keyLength true))
        | none => pure TableOutcome.fall
      else pure TableOutcome.fall
    match tbl with
    | .table s => return .out s true
    | .abortNull => return .nullish
    | .fall => do
      let st ← foldAcc (([] : List String), false, false) keys
        (fun acc k => do
          let keyString := quoteJSONString k ++ ": "
          let processed ← processValue E fuel k (objGet fields k) (depth + 1) val keyString.length true
          match processed with
          | .nullish => throw JsError.typeError  -- `processed.nested` on null/undefined
          | .out r pn =>
            pure (acc.1 ++ [keyString ++ r],
                  acc.2.1 || typeofObject (objGet fields k),
                  acc.2.2 || pn))
      let ai := match E.allowInline with
        | none => true
        | some f => f parentObj key val
      return .out (formatObject E st.1 depth st.2.2 keyLength ai) st.2.1
  termination_by structural fuel => fuel


/-- Source `tableOfArrays` (lines 314-372).  `none` models its
`return null` paths. -/
def tableOfArrays (E : Eff) : Nat → List JValue → Nat →
    Except JsError (Option (List String))
  | 0, _, _ => .error .stackOverflow
  | fuel + 1, rowArrs, columnCount => do
    let colsOpt ← foldAcc (some ([] : List TableCol)) (List.range columnCount)
      (fun acc i => do
        match acc with
        | none => pure none
        | some cs => do
          let col ← buildColumnA E fuel rowArrs i
          match col with
          | none => pure none
          | some c => pure (some (cs ++ [c])))
    match colsOpt with
    | none => return none
    | some cols => do
      let rows ← (List.range rowArrs.length).mapM (fun r => do
        match rowArrs.getD r .undefined with
        | .undefined => pure ""
        | rowv => do
          let lastFilled : Int := (jsArrLength rowv : Int) - 1
          let endC : Nat := if E.tablePadEndOfRows then columnCount else (lastFilled + 1).toNat
          let row ← foldAcc "[ " (List.range endC) (fun acc ci => do
            let col := cols.getD ci ((none : Option Nat), [])
            match col.2.getD r (Option.none) with
            | none =>
              match col.1 with
              | none => pure (acc ++ "")  -- width undefined: repeat(NaN) is ""
              | some w => pure (acc ++ spacesN (w + 2))
            | some cell => do
              let pad ← repSpaces ((col.1.getD 0 : Int) - (cell.length : Int) + 1)
              pure (acc ++ cell ++ (if (ci : Int) ≠ lastFilled then "," else "") ++ pad))
          pure (row ++ "]"))
      return some rows
  termination_by structural fuel => fuel


/-- One iteration of the column loop of `tableOfArrays` (lines 317-349):
sub-table attempt, then plain cell rendering with the per-cell length and
newline checks, then optional decimal alignment.  `none` aborts the whole
table. -/
def buildColumnA (E : Eff) : Nat → List JValue → Nat →
    Except JsError (Option TableCol)
  | 0, _, _ => .error .stackOverflow
  | fuel + 1, rowArrs, i => do
    let column := rowArrs.map (fun e => jsIndex e i)
    let subCol : SubOutcome ←
      match getTableColumnOrder (.arr column) E.maxObjectProperties E.tableMinSharedKeys with
      | none => pure SubOutcome.notSub
      | some subOrder => do
        let isArray := firstDefinedIsArray column
        if qLt (if isArray then E.maxArrayItems else E.maxObjectProperties) (subOrder.length : ℚ) then
          pure SubOutcome.abort
        else do
          let sub ← if isArray then tableOfArrays E fuel column subOrder.length
                    else tableOfObjects E fuel column subOrder
          match sub with
          | some st => pure (SubOutcome.sub st)
          | none => pure SubOutcome.notSub
    match subCol with
    | .abort => return none
    | .sub st => return some (some (st.headD "").length, st.map some)
    | .notSub => do
      let cellsRes ← foldAcc (some (([] : List (Option String)), (none : Option Nat), true)) column
        (fun acc v => do
          match acc with
          | none => pure none
          | some state =>
            match v with
            | .undefined => pure (some (state.1 ++ [Option.none], state.2.1, state.2.2))
            | _ => do
              let p ← processValue E fuel (toString i) v 0 (.arr rowArrs) 0 false
              let s ← outResult p
              if qLt E.maxLineLength (s.length : ℚ) || hasNL s then pure none
              else
                pure (some (state.1 ++ [some s],
                            some (Nat.max (state.2.1.getD 0) s.length),
                            state.2.2 && jsIsNumericString s)))
      match cellsRes with
      | none => return none
      | some state => do
        let cells := if E.tableDecimalAlignment && state.2.2 then
            decimalAlignment state.1
          else state.1
        return some (state.2.1, cells)
  termination_by structural fuel => fuel


/-- Source `tableOfObjects` (lines 374-458). -/
def tableOfObjects (E : Eff) : Nat → List JValue → List String →
    Except JsError (Option (List String))
  | 0, _, _ => .error .stackOverflow
  | fuel + 1, rowObjs, columnOrder => do
    let colsOpt ← foldAcc (some ([] : List TableCol)) columnOrder
      (fun acc columnKey => do
        match acc with
        | none => pure none
        | some cs => do
          let col ← buildColumnO E fuel rowObjs columnKey
          match col with
          | none => pure none
          | some c => pure (some (cs ++ [c])))
    match colsOpt with
    | none => return none
    | some cols => do
      let rows ← (List.range rowObjs.length).mapM (fun r => do
        match rowObjs.getD r .undefined with
        | .undefined => pure ""
        | rowv => do
          let lastFilled : Int := jsFindLastIndex columnOrder (fun e => jsHasKey rowv e)
          let endC : Nat := if E.tablePadEndOfRows then columnOrder.length else (lastFilled + 1).toNat
          let row ← foldAcc "\x7b " (List.range endC) (fun acc ci => do
            let col := cols.getD ci ((none : Option Nat), [])
            match col.2.getD r (Option.none) with
            | none =>
              match col.1 with
              | none => pure (acc ++ "")
              | some w => pure (acc ++ spacesN (w + 2))
            | some cell => do
              let pad ← repSpaces ((col.1.getD 0 : Int) - (cell.length : Int) + 1)
              pure (acc ++ cell ++ (if (ci : Int) ≠ lastFilled then "," else "") ++ pad))
          pure (row ++ "\x7d"))
      return some rows
  termination_by structural fuel => fuel


/-- One iteration of the column loop of `tableOfObjects` (lines 377-434):
sub-table attempt (rows prefixed by the JSON key), then plain cells with
either the decimal-alignment two-pass flow or the single-pass flow. -/
def buildColumnO (E : Eff) : Nat → List JValue → String →
    Except JsError (Option TableCol)
  | 0, _, _ => .error .stackOverflow
  | fuel + 1, rowObjs, columnKey => do
    let jsonKey := quoteJSONString columnKey
    let column := rowObjs.map (fun e => jsGetProp e columnKey)
    let subCol : SubOutcome ←
      match getTableColumnOrder (.arr column) E.maxObjectProperties E.tableMinSharedKeys with
      | none => pure SubOutcome.notSub
      | some subOrder => do
        let isArray := firstDefinedIsArray column
        if qLt (if isArray then E.maxArrayItems else E.maxObjectProperties) (subOrder.length : ℚ) then
          pure SubOutcome.abort
        else do
          let sub ← if isArray then tableOfArrays E fuel column subOrder.length
                    else tableOfObjects E fuel column subOrder
          match sub with
          | some st => pure (SubOutcome.sub (st.map (fun row => jsonKey ++ ": " ++ row)))
          | none => pure SubOutcome.notSub
    match subCol with
    | .abort => return none
    | .sub st => return some (some (st.headD "").length, st.map some)
    | .notSub => do
      if E.tableDecimalAlignment then do
        -- first pass (lines 402-413): render cells, check newlines, track
        -- numeric-ness, then align
        let res1 ← foldAcc (some (([] : List (Option String)), true)) column
          (fun acc v => do
            match acc with
            | none => pure none
            | some state =>
              match v with
              | .undefined => pure (some (state.1 ++ [Option.none], state.2))
              | _ => do
                let p ← processValue E fuel columnKey v 0 (.arr rowObjs) 0 false
                let s ← outResult p
                if hasNL s then pure none
                else pure (some (state.1 ++ [some s], state.2 && jsIsNumericString s)))
        match res1 with
        | none => return none
        | some state => do
          let cells := if state.2 then decimalAlignment state.1 else state.1
          -- second pass (lines 414-421): prefix the key, check the budget,
          -- compute the final width
          let res2 ← foldAcc (some (([] : List (Option String)), (none : Option Nat))) (column.zip cells)
            (fun acc p => do
              match acc with
              | none => pure none
              | some st2 =>
                match p.1 with
                | .undefined => pure (some (st2.1 ++ [Option.none], st2.2))
                | _ => do
                  let s := jsonKey ++ ": " ++ (p.2.getD "")
                  if qLt E.maxLineLength (s.length : ℚ) then pure none
                  else
                    pure (some (st2.1 ++ [some s],
                                some (Nat.max (st2.2.getD 0) s.length))))
          match res2 with
          | none => return none
          | some st2 => return some (st2.2, st2.1)
      else do
        -- single pass (lines 423-432)
        let res ← foldAcc (some (([] : List (Option String)), (none : Option Nat))) column
          (fun acc v => do
            match acc with
            | none => pure none
            | some state =>
              match v with
              | .undefined => pure (some (state.1 ++ [Option.none], state.2))
              | _ => do
                let p ← processValue E fuel columnKey v 0 (.arr rowObjs) 0 false
                let r ← outResult p
                let s := jsonKey ++ ": " ++ r
                if qLt E.maxLineLength (s.length : ℚ) || hasNL s then pure none
                else
                  pure (some (state.1 ++ [some s],
                              some (Nat.max (state.2.getD 0) s.length))))
        match res with
        | none => return none
        | some state => return some (state.2, state.1)
  termination_by structural fuel => fuel

end

/-- ECMAScript `SerializeJSONProperty` for the compact
`JSON.stringify(value, replacer)` call on source line 158: the optional
replacer is applied at every node with the holder as receiver; `undefined`
and function values are omitted (dropped from objects, `null` in arrays);
BigInt values make it throw a `TypeError`.  `toJSON` methods and the
space argument (absent at this call site) are not modelled. -/
def jsonSer (rep : Option ReplaceFn) : Nat → JValue → String → JValue →
    Except JsError (Option String)
  | 0, _, _, _ => .error .stackOverflow
  | fuel + 1, holder, key, value0 => do
    let v := match rep with
      | some f => f holder key value0
      | none => value0
    match v with
    | .null => return some "null"
    | .bool b => return some (if b then "true" else "false")
    | .num n => return some (renderNum n)
    | .str s => return some (quoteJSONString s)
    | .bigint _ => throw JsError.typeError
    | .undefined => return none
    | .func => return none
    | .arr items => do
      let parts ← foldAcc (([] : List String), 0) items
        (fun acc item => do
          let r ← jsonSer rep fuel (.arr items) (toString acc.2) item
          pure (acc.1 ++ [r.getD "null"], acc.2 + 1))
      return some ("[" ++ joinSep "," parts.1 ++ "]")
    | .obj fields => do
      let parts ← foldAcc ([] : List String) (jsObjectKeys fields)
        (fun acc k => do
          let r ← jsonSer rep fuel (.obj fields) k (objGet fields k)
          match r with
          | some s => pure (acc ++ [quoteJSONString k ++ ":" ++ s])
          | none => pure acc)
      return some ("\x7b" ++ joinSep "," parts ++ "\x7d")

/-- Stack budget for a top-level call; all inputs considered in this file
stay far below it. -/
def stackLimit : Nat := 1000

/-- `JSON.stringify(value, replacer)` (compact form, as called on source
line 158). -/
def jsonStringify (rep : Option ReplaceFn) (value : JValue) :
    Except JsError (Option String) :=
  jsonSer rep stackLimit (.obj [("", value)]) "" value

/-- Source `stringify` (lines 138-518): compute effective options; if the
effective indent is empty, return the plain `JSON.stringify` result
(before any callback validation); otherwise validate the three callback
options and run the layout engine on the root with holder `{ '': value }`.
`.ok none` is the `undefined` return value of the source. -/
def stringify (value : JValue) (o : StringifyOptions) :
    Except JsError (Option String) :=
  let E := mkEff o
  if E.indent.length = 0 then
    jsonStringify o.replace.toFn value
  else if o.replace.isInvalid then
    .error (.config "replace must be a function.")
  else if o.allowInline.isInvalid then
    .error (.config "allowInline must be a function.")
  else if o.allowTable.isInvalid then
    .error (.config "allowTable must be a function.")
  else
    match processValue E stackLimit "" value 0 (.obj [("", value)]) 0 true with
    | .error e => .error e
    | .ok (.out r _) => .ok (some r)
    | .ok .nullish => .ok none

/-! ### Concrete inputs used by the verification below -/

/-- `[1, 2, 3, 4, 5, 6, 7]`: one more item than the default
`maxArrayItems` of 6. -/
def arr7 : JValue := .arr ((List.range 7).map (fun i => JValue.num (i + 1)))

/-- `{ a: [1..7], b: [1..7] }`: a well-formed tree whose object-table
attempt finds 7 positional columns, exceeding the ceiling of 6. -/
def objTwoArr7 : JValue := .obj [("a", arr7), ("b", arr7)]

/-- `{ wrap: { a: [1..7], b: [1..7] } }`: the same object one level down. -/
def wrapObjTwoArr7 : JValue := .obj [("wrap", objTwoArr7)]

/-- `[[1..7], [1..7]]`: an array whose positional table has 7 columns. -/
def arrOfArr7 : JValue := .arr [arr7, arr7]

/-- Options with tables disabled. -/
def noTableOptions : StringifyOptions := { noOptions with tables := some false }

/-- A 58-character key. -/
def longKey : String := ⟨List.replicate 58 'a'⟩

/-- A 58-character string value. -/
def longVal : String := ⟨List.replicate 58 'b'⟩

/-- `{ "aa…a": "bb…b" }` with both tokens of length 58. -/
def longKVObj : JValue := .obj [(longKey, .str longVal)]

/-- The single rendered entry of `longKVObj`: 122 characters. -/
def longItem : String := quoteJSONString longKey ++ ": " ++ quoteJSONString longVal

/-- 17 items of length 4 at indices divisible by 4 and length 1 elsewhere:
uniform enough for the compact packer, with a non-monotone grid-width
function. -/
def items17 : List String :=
  (List.range 17).map (fun i => if i % 4 = 0 then "aaaa" else "a")

/-- The lengths of `items17`. -/
def lens17 : List Nat := items17.map String.length

/-- Effective options for `maxLineLength = 13`. -/
def effML13 : Eff := mkEff { noOptions with maxLineLength := some 13 }

/-- An options object whose `replace` member is present but not a
function, with `indent: 0`. -/
def badReplaceCompactOptions : StringifyOptions :=
  { noOptions with replace := .invalid, indent := .num 0 }

/-- An options object whose `replace` member is present but not a
function, with the default indent. -/
def badReplaceOptions : StringifyOptions := { noOptions with replace := .invalid }

/-- Eight items of length 2 (`"ab"` repeated): a uniform grid, so the
grid width is monotone in the column count. -/
def itemsU : List String := List.replicate 8 "ab"

/-- The lengths of `itemsU`. -/
def lensU : List Nat := List.replicate 8 2

/-! ### Theorems -/

/-- C1: the claim states that stringify completes on every well-formed,
acyclic input, returning a string (or the omitted signal only for an
unrepresentable root), every failed layout decision degrading to
one-item-per-line.  Evaluating the embedded code on the well-formed tree
`{ a: [1..7], b: [1..7] }` (default options): the object-table attempt
finds 7 positional columns, exceeding `maxArrayItems = 6`, and the
`return null` on source line 251 escapes `processValue`, so `stringify`
returns `undefined` (`.ok none`) instead of a string. -/
theorem C1_wellformed_object_renders_undefined :
    stringify objTwoArr7 noOptions = .ok none := rfl

/-- C2: the claim states that for an acyclic, unrepresentable-free value
and the identity replacer, parsing `stringify value {}` as JSON
reproduces the value.  Evaluating the embedded code on
`{ wrap: { a: [1..7], b: [1..7] } }`: the inner object makes
`processValue` return null (source line 251), and the caller then reads
`.nested` off that null (line 278), so the call throws a TypeError and
there is no output to parse at all. -/
theorem C2_roundtrip_fails_no_output :
    stringify wrapObjTwoArr7 noOptions = .error .typeError := rfl

/-- C8: the claim states that an unrepresentable sequence entry is
rendered as the literal null, a map entry with an unrepresentable value is
dropped, and the root returns the omitted signal.  Evaluating the embedded
code: the map-drop and root cases behave as claimed, but a sequence entry
that is `undefined` makes `processValue` return `undefined` and the array
loop then reads `.result` off it (source line 229), throwing a TypeError
instead of emitting `null`. -/
theorem C8_sequence_undefined_throws :
    stringify (JValue.arr [.undefined]) noOptions = .error .typeError ∧
    stringify (JValue.obj [("a", .undefined), ("b", .num 1)]) noOptions
      = .ok (some "\x7b \"b\": 1 \x7d") ∧
    stringify .undefined noOptions = .ok none :=
  ⟨rfl, rfl, rfl⟩

/-- C9: the claim states the scalar encoding is total for null, booleans,
strings, numbers and bigints.  Evaluating the embedded code: the four
other scalar kinds render as claimed, but the bigint branch (source line
192) hands the value to `JSON.stringify`, which throws a TypeError on
BigInt, so the encoding is not total. -/
theorem C9_bigint_scalar_throws :
    stringify (JValue.bigint 1) noOptions = .error .typeError ∧
    stringify .null noOptions = .ok (some "null") ∧
    stringify (.bool true) noOptions = .ok (some "true") ∧
    stringify (.bool false) noOptions = .ok (some "false") ∧
    stringify (.str "hello") noOptions = .ok (some "\"hello\"") ∧
    stringify (.num 123) noOptions = .ok (some "123") :=
  ⟨rfl, rfl, rfl, rfl, rfl, rfl⟩

/-- C5 counterexample: the claim states a table is produced only when its
column count is at most the applicable ceiling, with fallback to per-item
rendering otherwise.  On `[[1..7], [1..7]]` with default options the
column order has 7 columns, more than `maxArrayItems = 6`, yet a 7-column
positional table is still produced (the array branch has no top-level
ceiling check): the output differs from the per-item rendering obtained
with tables disabled. -/
theorem C5_wide_array_table_produced :
    getTableColumnOrder (.arr [arr7, arr7]) (mkEff noOptions).maxObjectProperties
      (mkEff noOptions).tableMinSharedKeys
      = some ((List.range 7).map (fun i => toString i)) ∧
    ((7 : ℚ) > (mkEff noOptions).maxArrayItems) ∧
    stringify arrOfArr7 noOptions
      = .ok (some "[\n  [ 1, 2, 3, 4, 5, 6, 7 ],\n  [ 1, 2, 3, 4, 5, 6, 7 ]\n]") ∧
    stringify arrOfArr7 noTableOptions
      = .ok (some "[\n  [\n    1, 2, 3,\n    4, 5, 6,\n    7\n  ],\n  [\n    1, 2, 3,\n    4, 5, 6,\n    7\n  ]\n]") ∧
    ("[\n  [ 1, 2, 3, 4, 5, 6, 7 ],\n  [ 1, 2, 3, 4, 5, 6, 7 ]\n]" : String)
      ≠ "[\n  [\n    1, 2, 3,\n    4, 5, 6,\n    7\n  ],\n  [\n    1, 2, 3,\n    4, 5, 6,\n    7\n  ]\n]" :=
  ⟨rfl, by rw [show (mkEff noOptions).maxArrayItems = (6 : ℚ) from rfl]; norm_num, rfl,
   rfl, by decide⟩

/-- C3 counterexample: the claim bounds every rendered line (minus leading
indentation) by `maxLineLength`, excepting only single atomic scalar or
table-cell leaves that are themselves wider than the budget.  On
`{ "a…a": "b…b" }` (58-character key and value, default budget 100) the
middle output line holds a 122-character entry although both its atomic
tokens (the 60-character quoted key and the 60-character quoted scalar)
fit the budget individually. -/
theorem C3_key_scalar_line_overflows :
    stringify longKVObj noOptions = .ok (some ("\x7b\n  " ++ longItem ++ "\n\x7d")) ∧
    splitLines ("\x7b\n  " ++ longItem ++ "\n\x7d") = ["\x7b", "  " ++ longItem, "\x7d"] ∧
    hasNL longItem = false ∧
    strRepeat (mkEff noOptions).indent 1 = "  " ∧
    longItem.length = 122 ∧
    ((122 : ℚ) > (mkEff noOptions).maxLineLength) ∧
    (quoteJSONString longKey).length = 60 ∧
    (quoteJSONString longVal).length = 60 ∧
    ((60 : ℚ) ≤ (mkEff noOptions).maxLineLength) :=
  ⟨rfl, rfl, rfl, rfl, rfl,
   by rw [show (mkEff noOptions).maxLineLength = (100 : ℚ) from rfl]; norm_num, rfl, rfl,
   by rw [show (mkEff noOptions).maxLineLength = (100 : ℚ) from rfl]; norm_num⟩

/-- C4 counterexample: the claim states that whenever the compact packer
applies, the binary search picks the largest column count in
`[1, ceil(sqrt n)]` whose total row width fits the budget.  For the 17
`items17` strings under budget 13 every packer precondition holds, yet the
search returns 2 columns although 4 columns (width 13) also fit: the grid
width is not monotone in the column count, so the binary search misses the
largest fitting value. -/
theorem C4_binary_search_not_largest :
    (findMaxItemsWide items17 lens17 effML13.maxLineLength).1 = 2 ∧
    qLe (gridWidth lens17 4 : ℚ) effML13.maxLineLength = true ∧
    4 ≤ ceilSqrt items17.length ∧
    qLt (qSub (arrMax lens17 : ℚ) (arrMin lens17 : ℚ))
      (qMax 4 (qMul (qDiv (listSum lens17 : ℚ) (items17.length : ℚ)) (qDiv 1 4))) = true ∧
    qLt effML13.maxArrayItems (items17.length : ℚ) = true ∧
    items17.all (fun item =>
      !hasNL item && item.data.head? ≠ some '[' && item.data.head? ≠ some '{') = true ∧
    formatArray effML13 items17 0 false 0 true
      = "[\n  aaaa, a,\n  a,    a,\n  aaaa, a,\n  a,    a,\n  aaaa, a,\n  a,    a,\n  aaaa, a,\n  a,    a,\n  aaaa\n]" :=
  ⟨rfl, by decide, by decide, by decide, by decide, by decide, rfl⟩

/-- C7 counterexample: the claim states that any recognized callback
option holding a non-function value makes stringify throw before any
traversal, for every input and option set.  With `replace` present and
invalid but `indent: 0`, the compact path returns normally before the
validation code runs: no error is thrown. -/
theorem C7_invalid_callback_not_rejected :
    badReplaceCompactOptions.replace.isInvalid = true ∧
    stringify .null badReplaceCompactOptions = .ok (some "null") :=
  ⟨rfl, rfl⟩

/-- Helper: with an empty effective indent, `stringify` returns the plain
compact `JSON.stringify` of the value under the supplied replacer, before
any validation or traversal (source lines 157-159). -/
theorem stringify_empty_indent (v : JValue) (o : StringifyOptions)
    (h : (effectiveIndent o.indent).length = 0) :
    stringify v o = jsonStringify o.replace.toFn v := by
  have h2 : (mkEff o).indent.length = 0 := h
  simp only [stringify]
  rw [if_pos h2]

/-- C6: with an empty or zero-width indent, stringify returns exactly the
compact (no-whitespace) JSON text encoding of the value with the
configured replacer applied, i.e. the `JSON.stringify(value, replace)`
call of source line 158; since the right-hand side depends only on the
`replace` option, no other option can have any effect on the result. -/
theorem C6_empty_indent_is_plain_json (v : JValue) (o : StringifyOptions)
    (h : (effectiveIndent o.indent).length = 0) :
    stringify v o = jsonStringify o.replace.toFn v :=
  stringify_empty_indent v o h

/-- Options with `indent: 0` and a doubling replacer, for the C6 witness. -/
def doublingOptions : StringifyOptions :=
  { noOptions with
    indent := .num 0
    replace := .fn (fun _ _ v => match v with | .num n => .num (2 * n) | _ => v) }

/-- C6 witness: the theorem applied at `{a: 1, b: 2}` with `indent: 0` and
a number-doubling replacer; the shared value is the compact text with the
replacer applied. -/
theorem C6_empty_indent_is_plain_json_witness :
    stringify (JValue.obj [("a", .num 1), ("b", .num 2)]) doublingOptions
      = jsonStringify doublingOptions.replace.toFn (JValue.obj [("a", .num 1), ("b", .num 2)]) ∧
    jsonStringify doublingOptions.replace.toFn (JValue.obj [("a", .num 1), ("b", .num 2)])
      = .ok (some "\x7b\"a\":2,\"b\":4\x7d") :=
  ⟨C6_empty_indent_is_plain_json _ doublingOptions rfl, rfl⟩

/-- C10: the effective indent unit never exceeds 10 characters: a numeric
indent is clamped into [0, 10] spaces, a string indent is truncated to its
first 10 characters, and a null indent is the empty indent, which routes
the call to the compact `JSON.stringify` path. -/
theorem C10_indent_unit_clamped :
    (∀ io : IndentOpt, (effectiveIndent io).length ≤ 10) ∧
    (∀ n : Int, ∃ m : Nat, m ≤ 10 ∧ effectiveIndent (.num n) = spacesN m ∧
      (0 ≤ n → n ≤ 10 → (m : Int) = n) ∧ (n < 0 → m = 0) ∧ (10 < n → m = 10)) ∧
    (∀ s : String, (effectiveIndent (.str s)).data = s.data.take 10) ∧
    effectiveIndent .nullv = "" ∧
    (∀ (v : JValue) (o : StringifyOptions), o.indent = .nullv →
      stringify v o = jsonStringify o.replace.toFn v) := by
  refine ⟨fun io => ?_, fun n => ?_, fun s => rfl, rfl, fun v o h => ?_⟩
  · cases io with
    | absent => decide
    | nullv => decide
    | num n =>
      show (spacesN (Int.toNat (max 0 (min 10 n)))).length ≤ 10
      show (List.replicate (Int.toNat (max 0 (min 10 n))) ' ').length ≤ 10
      rw [List.length_replicate]
      omega
    | str s =>
      show (s.data.take 10).length ≤ 10
      rw [List.length_take]
      omega
  · refine ⟨Int.toNat (max 0 (min 10 n)), ?_, rfl, fun h0 h10 => ?_, fun hneg => ?_,
      fun hbig => ?_⟩ <;> omega
  · rw [stringify_empty_indent v o (by rw [h]; rfl)]

/-- C10 witness: the clamping facts of the theorem instantiated at the
numeric indents 15 and -3. -/
theorem C10_indent_unit_clamped_witness :
    effectiveIndent (.num 15) = spacesN 10 ∧ effectiveIndent (.num (-3)) = spacesN 0 := by
  constructor
  · obtain ⟨m, _, heq, _, _, hbig⟩ := C10_indent_unit_clamped.2.1 15
    rw [heq, hbig (by norm_num)]
  · obtain ⟨m, _, heq, _, hneg, _⟩ := C10_indent_unit_clamped.2.1 (-3)
    rw [heq, hneg (by norm_num)]

/-- C7 amended: when the effective indent is non-empty, a recognized
callback option holding a non-function value makes stringify throw the
descriptive configuration error synchronously, before any traversal of the
input (the conclusion holds for every input value, and the three checks
run in the order replace, allowInline, allowTable); with a zero-width
indent the compact path returns first and no validation happens. -/
theorem C7_invalid_callback_rejected_when_indented (v : JValue)
    (o : StringifyOptions) (h : (effectiveIndent o.indent).length ≠ 0) :
    (o.replace.isInvalid = true →
      stringify v o = .error (.config "replace must be a function.")) ∧
    (o.replace.isInvalid = false → o.allowInline.isInvalid = true →
      stringify v o = .error (.config "allowInline must be a function.")) ∧
    (o.replace.isInvalid = false → o.allowInline.isInvalid = false →
      o.allowTable.isInvalid = true →
      stringify v o = .error (.config "allowTable must be a function.")) := by
  have hne : ¬((mkEff o).indent.length = 0) := h
  refine ⟨fun h1 => ?_, fun h1 h2 => ?_, fun h1 h2 h3 => ?_⟩ <;>
    simp only [stringify] <;> rw [if_neg hne] <;> simp [h1]
  · simp [h2]
  · simp [h2, h3]

/-- C7 amended witness: the theorem applied to a null input and options
with an invalid `replace` under the default two-space indent. -/
theorem C7_invalid_callback_rejected_witness :
    stringify .null badReplaceOptions = .error (.config "replace must be a function.") :=
  (C7_invalid_callback_rejected_when_indented .null badReplaceOptions (by decide)).1 rfl

/-- C5 amended: for an object-parent container (with no replacer, object
tables enabled, tabling allowed here and approved by any configured
permission callback), when the resolved column order is longer than the
applicable ceiling — maxArrayItems when the rows are arrays,
maxObjectProperties when they are objects — processValue does not render a
table, but neither does it fall back to per-item rendering: it aborts with
the null signal (the `return null` of source line 251), which surfaces as
undefined at the root and as a thrown TypeError in nested positions.
Array-parent containers (see the counterexample) have no such top-level
ceiling check at all. -/
theorem C5_object_ceiling_aborts (E : Eff) (fuel : Nat) (key : String)
    (fields : List (String × JValue)) (depth : Nat) (parentObj : JValue)
    (keyLength : Nat) (cols : List String)
    (hrep : E.rep = none)
    (hto : E.tableObjects = true)
    (hat : (match E.allowTable with
            | none => true
            | some f => f parentObj key (.obj fields)) = true)
    (hco : getTableColumnOrder (.obj fields) E.maxObjectProperties E.tableMinSharedKeys
      = some cols)
    (hover : qLt (if objTableIsArray fields
          ((jsObjectKeys fields).filter (fun k => !(isUnrepresentable (objGet fields k))))
        then E.maxArrayItems else E.maxObjectProperties) (cols.length : ℚ) = true) :
    processObj E (fuel + 1) key fields depth parentObj keyLength true = .ok .nullish := by
  simp only [processObj, hrep, hto, hat, hco, Bool.and_self, Bool.true_and, if_true, ite_true]
  simp only [hover, if_true, ite_true]
  rfl

/-- C5 amended witness: the theorem applied to `{a: [1..7], b: [1..7]}`
under default options (7 columns, array rows, ceiling 6). -/
theorem C5_object_ceiling_aborts_witness :
    processObj (mkEff noOptions) 21 "" [("a", arr7), ("b", arr7)] 0
      (.obj [("", objTwoArr7)]) 0 true = .ok .nullish :=
  C5_object_ceiling_aborts (mkEff noOptions) 20 "" [("a", arr7), ("b", arr7)] 0
    (.obj [("", objTwoArr7)]) 0 ((List.range 7).map (fun i => toString i))
    rfl rfl rfl (by decide) (by decide)


/-- Bridge between the executable comparison `qLe` and the order on `ℚ`. -/
theorem qLe_iff (a b : ℚ) : qLe a b = true ↔ a ≤ b := by
  unfold qLe
  rw [Bool.not_eq_true']
  exact Iff.rfl

/-- Invariant of the `while (low <= high)` binary-search loop of
`findMaxItemsWide`: starting from a state whose accumulators satisfy the
loop invariant (and with enough iteration budget), the result stays in
`[1, max 1 H]`, a cached width list is always `getColumnWidths` at the
result together with a passing fit test, and, *when the grid width is
monotone in the column count*, every fitting column count in `[1, H]`
is at most the result. -/
theorem fmwGo_spec (lengths : List Nat) (L : ℚ) (H : Nat) :
    ∀ (iter : Nat) (low high : Int) (best : Nat) (bw : Option (List Nat)),
      1 ≤ low → high ≤ (H : Int) → (best : Int) ≤ low → 1 ≤ best → best ≤ max 1 H →
      (bw = none → best = 1) →
      (∀ w, bw = some w → w = getColumnWidths lengths best ∧ gridFits lengths L best = true) →
      (high + 1 - low).toNat < iter →
      ((∀ a b : Nat, 1 ≤ a → a ≤ b → b ≤ H →
          (gridWidth lengths a : ℚ) ≤ (gridWidth lengths b : ℚ)) →
        ∀ c : Nat, 1 ≤ c → (c : Int) ≤ (H : Int) → gridFits lengths L c = true →
          (c ≤ best ∨ ((low ≤ (c : Int)) ∧ ((c : Int) ≤ high)))) →
      1 ≤ (fmwGo lengths L iter low high best bw).1 ∧
      (fmwGo lengths L iter low high best bw).1 ≤ max 1 H ∧
      ((fmwGo lengths L iter low high best bw).2 = none →
        (fmwGo lengths L iter low high best bw).1 = 1) ∧
      (∀ w, (fmwGo lengths L iter low high best bw).2 = some w →
        w = getColumnWidths lengths (fmwGo lengths L iter low high best bw).1 ∧
        gridFits lengths L (fmwGo lengths L iter low high best bw).1 = true) ∧
      ((∀ a b : Nat, 1 ≤ a → a ≤ b → b ≤ H →
          (gridWidth lengths a : ℚ) ≤ (gridWidth lengths b : ℚ)) →
        ∀ c : Nat, 1 ≤ c → c ≤ H → gridFits lengths L c = true →
          c ≤ (fmwGo lengths L iter low high best bw).1) := by
  intro iter
  induction iter with
  | zero =>
    intro low high best bw _ _ _ _ _ _ _ hfuel _
    omega
  | succ m ih =>
    intro low high best bw hlow hhigh hbl hb1 hbH hnone hsome hfuel hG
    by_cases hlh : low ≤ high
    · have hm1 : low ≤ (low + high) / 2 := by omega
      have hm2 : (low + high) / 2 ≤ high := by omega
      have hmn : (((low + high) / 2).toNat : Int) = (low + high) / 2 := by omega
      rw [fmwGo, if_pos hlh]
      by_cases hfit : gridFits lengths L ((low + high) / 2).toNat = true
      · rw [if_pos hfit]
        apply ih
        · omega
        · exact hhigh
        · omega
        · omega
        · have : ((low + high) / 2 : Int) ≤ (H : Int) := le_trans hm2 hhigh
          omega
        · intro hco
          exact absurd hco (by simp)
        · intro w hw
          injection hw with hw2
          exact ⟨hw2.symm, hfit⟩
        · omega
        · intro hmono c hc1 hc2 hcf
          rcases hG hmono c hc1 hc2 hcf with h | ⟨h1, h2⟩
          · left
            omega
          · by_cases hcm : (c : Int) ≤ (low + high) / 2
            · left
              omega
            · right
              omega
      · rw [if_neg hfit]
        apply ih
        · exact hlow
        · omega
        · exact hbl
        · exact hb1
        · exact hbH
        · exact hnone
        · exact hsome
        · omega
        · intro hmono c hc1 hc2 hcf
          rcases hG hmono c hc1 hc2 hcf with h | ⟨h1, h2⟩
          · left
            exact h
          · by_cases hcm : (c : Int) ≤ (low + high) / 2 - 1
            · right
              omega
            · exfalso
              have hcmid : ((low + high) / 2).toNat ≤ c := by omega
              have hmid1 : 1 ≤ ((low + high) / 2).toNat := by omega
              have hcH : c ≤ H := by exact_mod_cast hc2
              have hgw := hmono ((low + high) / 2).toNat c hmid1 hcmid hcH
              have hfitc : (gridWidth lengths c : ℚ) ≤ L := (qLe_iff _ _).mp hcf
              have : gridFits lengths L ((low + high) / 2).toNat = true :=
                (qLe_iff _ _).mpr (le_trans hgw hfitc)
              exact hfit this
    · rw [fmwGo, if_neg hlh]
      refine ⟨hb1, hbH, hnone, hsome, fun hmono c hc1 hc2 hcf => ?_⟩
      rcases hG hmono c hc1 (by exact_mod_cast hc2) hcf with h | ⟨h1, h2⟩
      · exact h
      · omega

/-- The upward square-root scan never goes below its start value. -/
theorem floorSqrtGo_ge (n : Nat) : ∀ (fl k : Nat), k ≤ floorSqrtGo n fl k := by
  intro fl
  induction fl with
  | zero => intro k; exact Nat.le_refl _
  | succ m ih =>
    intro k
    rw [floorSqrtGo]
    by_cases h : (k + 1) * (k + 1) ≤ n
    · rw [if_pos h]
      exact Nat.le_trans (by omega) (ih (k + 1))
    · rw [if_neg h]

/-- `Math.ceil(Math.sqrt n)` is at least 1 for positive `n`. -/
theorem ceilSqrt_pos (n : Nat) (h : 1 ≤ n) : 1 ≤ ceilSqrt n := by
  have hf : 1 ≤ floorSqrt n := by
    unfold floorSqrt
    cases n with
    | zero => omega
    | succ m =>
      rw [floorSqrtGo, if_pos (by omega)]
      exact floorSqrtGo_ge _ _ _
  unfold ceilSqrt
  by_cases he : floorSqrt n * floorSqrt n = n
  · rw [if_pos he]
    exact hf
  · rw [if_neg he]
    omega

/-- What source `findMaxItemsWide` guarantees: the chosen column count
lies in `[1, ceil(sqrt n)]`, the returned widths are `getColumnWidths` at
that count, any count `≥ 2` passes the fit test against `maxLineLength`,
and under monotonicity of the grid width the count is the largest fitting
one.  (Without monotonicity the last part fails; see the C4
counterexample.) -/
theorem findMaxItemsWide_spec (items : List String) (lengths : List Nat) (L : ℚ)
    (hne : items ≠ []) :
    1 ≤ (findMaxItemsWide items lengths L).1 ∧
    (findMaxItemsWide items lengths L).1 ≤ ceilSqrt items.length ∧
    (findMaxItemsWide items lengths L).2
      = getColumnWidths lengths (findMaxItemsWide items lengths L).1 ∧
    (2 ≤ (findMaxItemsWide items lengths L).1 →
      gridFits lengths L (findMaxItemsWide items lengths L).1 = true) ∧
    ((∀ a b : Nat, 1 ≤ a → a ≤ b → b ≤ ceilSqrt items.length →
        (gridWidth lengths a : ℚ) ≤ (gridWidth lengths b : ℚ)) →
      ∀ c : Nat, 1 ≤ c → c ≤ ceilSqrt items.length → gridFits lengths L c = true →
        c ≤ (findMaxItemsWide items lengths L).1) := by
  have hn1 : 1 ≤ items.length := by
    cases items with
    | nil => exact absurd rfl hne
    | cons a l => simp
  have hH : 1 ≤ ceilSqrt items.length := ceilSqrt_pos _ hn1
  have h := fmwGo_spec lengths L (ceilSqrt items.length) (ceilSqrt items.length + 1)
    1 (ceilSqrt items.length) 1 none (by omega) (by omega) (by omega) (by omega)
    (by omega) (fun _ => rfl) (fun w hw => absurd hw (by simp)) (by omega)
    (fun _ c hc1 hc2 _ => Or.inr ⟨by omega, hc2⟩)
  unfold findMaxItemsWide
  rcases hfw : fmwGo lengths L (ceilSqrt items.length + 1) 1 (ceilSqrt items.length) 1 none
    with ⟨b, bw⟩
  rw [hfw] at h
  dsimp only at h ⊢
  obtain ⟨h1, h2, h3, h4, h5⟩ := h
  have hb3 : b ≤ ceilSqrt items.length :=
    le_trans h2 (sup_le hH (le_refl _))
  cases bw with
  | none =>
    have hb1 : b = 1 := h3 rfl
    exact ⟨h1, hb3, rfl, fun hge => absurd hge (by omega), h5⟩
  | some w =>
    obtain ⟨hw1, hw2⟩ := h4 w rfl
    exact ⟨h1, hb3, by simpa using hw1, fun _ => hw2, h5⟩

/-- C4 amended: the compact packer searches `[1, ceil(sqrt n)]` by
binary search over the stated row-width formula
(`sum of per-column maxima + 2*(c-1)`): its column count always lies in
`[1, ceil(sqrt n)]`, the widths returned are `getColumnWidths` at that
count, any count `≥ 2` fits the budget, and *if* the grid width is
monotone in the column count the result is the largest fitting count.
The unqualified "largest" of the original claim is refuted by
`C4_binary_search_not_largest`. -/
theorem C4_packer_bounded_best_fit (items : List String) (lengths : List Nat) (L : ℚ) (hne : items ≠ []) :
    1 ≤ (findMaxItemsWide items lengths L).1 ∧
    (findMaxItemsWide items lengths L).1 ≤ ceilSqrt items.length ∧
    (findMaxItemsWide items lengths L).2
      = getColumnWidths lengths (findMaxItemsWide items lengths L).1 ∧
    (2 ≤ (findMaxItemsWide items lengths L).1 →
      gridFits lengths L (findMaxItemsWide items lengths L).1 = true) ∧
    ((∀ a b : Nat, 1 ≤ a → a ≤ b → b ≤ ceilSqrt items.length →
        (gridWidth lengths a : ℚ) ≤ (gridWidth lengths b : ℚ)) →
      ∀ c : Nat, 1 ≤ c → c ≤ ceilSqrt items.length → gridFits lengths L c = true →
        c ≤ (findMaxItemsWide items lengths L).1) :=
  findMaxItemsWide_spec items lengths L hne

/-- C4 amended witness: eight items of length 2 under budget 10; the
grid width is monotone there, so the theorem pins the packer to the
largest fitting count, 3 (width `3*2 + 2*2 = 10`). -/
theorem C4_packer_bounded_best_fit_witness : (findMaxItemsWide itemsU lensU 10).1 = 3 := by
  obtain ⟨h1, h2, _, _, hmax⟩ := C4_packer_bounded_best_fit itemsU lensU 10 (by decide)
  have hceil : ceilSqrt itemsU.length = 3 := by decide
  have hmono : ∀ a b : Nat, 1 ≤ a → a ≤ b → b ≤ ceilSqrt itemsU.length →
      (gridWidth lensU a : ℚ) ≤ (gridWidth lensU b : ℚ) := by
    intro a b ha hab hb3
    rw [hceil] at hb3
    have ha3 : a ≤ 3 := by omega
    interval_cases a <;> interval_cases b <;> exact Nat.cast_le.mpr (by decide)
  have h3 := hmax hmono 3 (by omega) (by omega) (by decide)
  rw [hceil] at h2
  omega

/-- `List.contains` distributes over append. -/
theorem contains_append_nl (l1 l2 : List Char) (c : Char) :
    (l1 ++ l2).contains c = (l1.contains c || l2.contains c) := by
  induction l1 with
  | nil => rfl
  | cons x t ih => simp [List.contains_cons, ih, Bool.or_assoc]

/-- `hasNL` distributes over string append. -/
theorem hasNL_append (a b : String) : hasNL (a ++ b) = (hasNL a || hasNL b) := by
  unfold hasNL
  rw [String.data_append]
  exact contains_append_nl a.data b.data '\n'

/-- Shifting the accumulator out of a sum fold. -/
theorem foldlAdd_init (l : List Nat) : ∀ s : Nat, l.foldl (· + ·) s = s + l.foldl (· + ·) 0 := by
  induction l with
  | nil => intro s; simp
  | cons a t ih =>
    intro s
    simp only [List.foldl_cons]
    rw [ih (s + a), ih (0 + a)]
    omega

/-- `listSum` on a cons. -/
theorem listSum_cons (a : Nat) (t : List Nat) : listSum (a :: t) = a + listSum t := by
  unfold listSum
  simp only [List.foldl_cons]
  rw [foldlAdd_init t (0 + a)]
  omega

/-- `listSum` on an append. -/
theorem listSum_append (a b : List Nat) : listSum (a ++ b) = listSum a + listSum b := by
  unfold listSum
  rw [List.foldl_append, foldlAdd_init]

/-- A prefix sum is at most the whole sum. -/
theorem listSum_take_le (l : List Nat) (k : Nat) : listSum (l.take k) ≤ listSum l := by
  conv_rhs => rw [← List.take_append_drop k l]
  rw [listSum_append]
  omega

/-- The base of a max fold is at most the fold. -/
theorem le_foldl_max (t : List Nat) : ∀ h : Nat, h ≤ t.foldl Nat.max h := by
  induction t with
  | nil => intro h; exact Nat.le_refl h
  | cons x t ih => intro h; exact Nat.le_trans (Nat.le_max_left h x) (ih (Nat.max h x))

/-- Every element of the list is at most a max fold over it. -/
theorem mem_le_foldl_max (t : List Nat) : ∀ (h a : Nat), a ∈ t → a ≤ t.foldl Nat.max h := by
  induction t with
  | nil => intro h a ha; cases ha
  | cons x t ih =>
    intro h a ha
    rcases List.mem_cons.mp ha with h1 | h2
    · subst h1; exact Nat.le_trans (Nat.le_max_right h a) (le_foldl_max t (Nat.max h a))
    · exact ih (Nat.max h x) a h2

/-- Every member of a list is at most its `arrMax`. -/
theorem le_arrMax (l : List Nat) (a : Nat) (ha : a ∈ l) : a ≤ arrMax l := by
  cases l with
  | nil => cases ha
  | cons h t =>
    rcases List.mem_cons.mp ha with h1 | h2
    · subst h1; exact le_foldl_max t a
    · exact mem_le_foldl_max t h a h2

/-- Length of a run of spaces. -/
theorem spacesN_length (n : Nat) : (spacesN n).length = n := by
  unfold spacesN
  show (List.replicate n ' ').length = n
  simp

/-- `getColumnWidths` returns one width per column,
`min columnCount n` of them. -/
theorem getColumnWidths_length (lengths : List Nat) (c : Nat) :
    (getColumnWidths lengths c).length = min c lengths.length := by
  simp [getColumnWidths]

/-- Each entry of `lengths` is at most the width of its column
(`idx % columnCount`). -/
theorem length_le_columnWidth (lengths : List Nat) (c idx j : Nat) (hc : 1 ≤ c)
    (hidx : idx < lengths.length) (hj : idx % c = j)
    (hb : j < (getColumnWidths lengths c).length) :
    lengths[idx] ≤ (getColumnWidths lengths c)[j] := by
  subst hj
  simp only [getColumnWidths, List.getElem_map, List.getElem_range]
  apply le_arrMax
  apply List.mem_map.mpr
  refine ⟨(idx, lengths[idx]), List.mem_filter.mpr ⟨?_, ?_⟩, rfl⟩
  · rw [List.mk_mem_enum_iff_getElem?]
    exact List.getElem?_eq_getElem hidx
  · simp

/-- Each cell of row `i` of the packed grid fits the width of its
column: cell `k` of the row is item `i*c + k`, whose length enters the
maximum defining column `k`. -/
theorem chunk_cell_le (items : List String) (c i k : Nat)
    (s : String) (hs : ((items.drop (i * c)).take c)[k]? = some s)
    (w : Nat) (hw : (getColumnWidths (items.map String.length) c)[k]? = some w) :
    s.length ≤ w := by
  obtain ⟨hk1, hs1⟩ := List.getElem?_eq_some.mp hs
  obtain ⟨hk2, hw1⟩ := List.getElem?_eq_some.mp hw
  subst hs1
  subst hw1
  simp only [List.length_take, List.length_drop] at hk1
  have hkc : k < c := by omega
  have hidx : i * c + k < items.length := by omega
  have hidx2 : i * c + k < (items.map String.length).length := by simpa using hidx
  have hchunk : ((items.drop (i * c)).take c)[k] = items[i * c + k] := by
    rw [List.getElem_take, List.getElem_drop]
  rw [hchunk]
  have hmap : (items.map String.length)[i * c + k] = items[i * c + k].length :=
    List.getElem_map String.length
  rw [← hmap]
  exact length_le_columnWidth (items.map String.length) c (i * c + k) k (by omega) hidx2
    (by rw [Nat.mul_comm, Nat.mul_add_mod]; exact Nat.mod_eq_of_lt hkc) hk2

/-- `getLastD` as a positional lookup on a cons. -/
theorem cons_getElemQ_last (l : List String) : ∀ a : String,
    (a :: l)[l.length]? = some (l.getLastD a) := by
  induction l with
  | nil => intro a; rfl
  | cons b t ih =>
    intro a
    show (a :: b :: t)[t.length + 1]? = _
    rw [List.getElem?_cons_succ, List.getLastD_cons]
    exact ih b

/-- Length bound for the `joinColumns` loop: the joined tail costs at
most the widths of all but the last participating column, the last
item's own length, and 2 separator characters per item. -/
theorem jcGo_length_le (rest : List String) : ∀ (ws : List Nat) (prev : String),
    rest.length ≤ ws.length →
    (∀ p ∈ (prev :: rest).zip ws, p.1.length ≤ p.2) →
    prev.length + (jcGo prev rest ws).length ≤
      listSum (ws.take rest.length) + (rest.getLastD prev).length + 2 * rest.length := by
  induction rest with
  | nil =>
    intro ws prev _ _
    simp [jcGo, listSum]
  | cons cur rest ih =>
    intro ws prev hlen hall
    cases ws with
    | nil => simp at hlen
    | cons w ws =>
      have hprev : prev.length ≤ w := hall (prev, w) (by simp [List.zip_cons_cons])
      have hrec := ih ws cur (by simpa using hlen)
        (fun p hp => hall p (by simp [List.zip_cons_cons]; right; exact hp))
      simp only [jcGo, String.length_append, spacesN_length, List.length_cons,
        List.take_succ_cons, listSum_cons, List.getLastD_cons]
      have hc1 : (",").length = 1 := rfl
      omega

/-- Every row the compact-grid layout emits — row `i` joins items
`i*c .. i*c + c - 1` padded to the column widths — is at most
`gridWidth`, the quantity the binary search compares to the line
budget. -/
theorem joinColumns_row_le (items : List String) (c i : Nat) (hc : 1 ≤ c) :
    (joinColumns ((items.drop (i * c)).take c)
        (getColumnWidths (items.map String.length) c)).length ≤
      gridWidth (items.map String.length) c := by
  set ws := getColumnWidths (items.map String.length) c with hws
  have hgw : gridWidth (items.map String.length) c = listSum ws + (c - 1) * 2 := rfl
  have hwsl : ws.length = min c items.length := by
    rw [hws, getColumnWidths_length, List.length_map]
  rcases hch : (items.drop (i * c)).take c with _ | ⟨x0, rest⟩
  · simp [joinColumns]
  · have hchl : ((items.drop (i * c)).take c).length = rest.length + 1 := by
      rw [hch]; rfl
    have hlen1 : ((items.drop (i * c)).take c).length
        = min c (items.length - i * c) := by simp
    have hrl : rest.length < ws.length := by
      rw [hwsl]; omega
    have hall : ∀ p ∈ (x0 :: rest).zip ws, p.1.length ≤ p.2 := by
      rw [← hch]
      intro p hp
      obtain ⟨k, hk, hpk⟩ := List.mem_iff_getElem.mp hp
      rw [List.length_zip] at hk
      have hk1 : k < ((items.drop (i * c)).take c).length := by omega
      have hk2 : k < ws.length := by omega
      rw [List.getElem_zip] at hpk
      have h1 := List.getElem?_eq_getElem hk1
      have h2 := List.getElem?_eq_getElem hk2
      have := chunk_cell_le items c i k _ h1 _ h2
      rw [← hpk]
      exact this
    have hlast : ((items.drop (i * c)).take c)[rest.length]? = some (rest.getLastD x0) := by
      rw [hch]
      exact cons_getElemQ_last rest x0
    have hwlast : ws[rest.length]? = some (ws[rest.length]) := List.getElem?_eq_getElem hrl
    have hlastle := chunk_cell_le items c i rest.length _ hlast _ hwlast
    have htake : listSum (ws.take rest.length) + ws[rest.length] ≤ listSum ws := by
      have h1 : ws.take (rest.length + 1) = ws.take rest.length ++ [ws[rest.length]] := by
        rw [List.take_succ, List.getElem?_eq_getElem hrl]
        rfl
      have h2 := listSum_take_le ws (rest.length + 1)
      rw [h1, listSum_append] at h2
      have h3 : listSum [ws[rest.length]] = ws[rest.length] := by simp [listSum]
      omega
    have hmain := jcGo_length_le rest ws x0 (by omega) hall
    simp only [joinColumns, String.length_append]
    omega

/-- `formatObject` produces a newline-free (inline) rendering of a
non-empty item list only when the admission check passed, so
`keyLength + length ≤ maxLineLength` (source line 505). -/
theorem formatObject_no_newline_fits (E : Eff) (items : List String)
    (depth keyLength : Nat) (nested ai : Bool) (hne : items ≠ [])
    (hnl : hasNL (formatObject E items depth nested keyLength ai) = false) :
    qLe ((keyLength + (formatObject E items depth nested keyLength ai).length : Nat) : ℚ)
      E.maxLineLength = true := by
  have hemp : items.isEmpty = false := by
    cases items with
    | nil => exact absurd rfl hne
    | cons a l => rfl
  simp only [formatObject, hemp, Bool.false_eq_true, if_false] at hnl ⊢
  by_cases hcnd : (ai && !nested &&
      qLe ((items.length : Nat) : ℚ) E.maxObjectProperties &&
      qLe ((keyLength + ("\x7b " ++ joinSep ", " items ++ " \x7d").length : Nat) : ℚ)
        E.maxLineLength &&
      !hasNL ("\x7b " ++ joinSep ", " items ++ " \x7d")) = true
  · rw [if_pos hcnd] at hnl ⊢
    simp only [Bool.and_eq_true] at hcnd
    exact hcnd.1.2
  · rw [if_neg hcnd] at hnl
    exfalso
    simp only [hasNL_append, show hasNL "\x7b\n" = true from rfl, Bool.true_or] at hnl
    exact Bool.noConfusion hnl

/-- `formatArray` produces a newline-free (inline) rendering of a
non-empty item list only when the admission check passed, so
`keyLength + length ≤ maxLineLength` (source line 467). -/
theorem formatArray_no_newline_fits (E : Eff) (items : List String)
    (depth keyLength : Nat) (nested ai : Bool) (hne : items ≠ [])
    (hnl : hasNL (formatArray E items depth nested keyLength ai) = false) :
    qLe ((keyLength + (formatArray E items depth nested keyLength ai).length : Nat) : ℚ)
      E.maxLineLength = true := by
  have hemp : items.isEmpty = false := by
    cases items with
    | nil => exact absurd rfl hne
    | cons a l => rfl
  simp only [formatArray, hemp, Bool.false_eq_true, if_false] at hnl ⊢
  by_cases hcnd : (ai && !nested &&
      qLe ((items.length : Nat) : ℚ) E.maxArrayItems &&
      items.all (fun item => qLe ((item.length : Nat) : ℚ) E.maxArrayItemLength) &&
      qLe ((keyLength + ("[ " ++ joinSep ", " items ++ " ]").length : Nat) : ℚ)
        E.maxLineLength &&
      !hasNL ("[ " ++ joinSep ", " items ++ " ]")) = true
  · rw [if_pos hcnd] at hnl ⊢
    simp only [Bool.and_eq_true] at hcnd
    exact hcnd.1.2
  · rw [if_neg hcnd] at hnl
    exfalso
    split at hnl
    · split at hnl
      · simp only [hasNL_append, show hasNL "[\n" = true from rfl, Bool.true_or] at hnl
        exact Bool.noConfusion hnl
      · simp only [hasNL_append, show hasNL "[\n" = true from rfl, Bool.true_or] at hnl
        exact Bool.noConfusion hnl
    · simp only [hasNL_append, show hasNL "[\n" = true from rfl, Bool.true_or] at hnl
      exact Bool.noConfusion hnl

/-- Any row of the packed grid fits the line budget whenever the packer
chose at least two columns: the widths returned are `getColumnWidths` at
the chosen count, which then passed the fit test. -/
theorem packed_row_fits (items : List String) (L : ℚ) (i : Nat)
    (hne : items ≠ [])
    (h2 : 2 ≤ (findMaxItemsWide items (items.map String.length) L).1) :
    qLe (((joinColumns
        ((items.drop (i * (findMaxItemsWide items (items.map String.length) L).1)).take
          (findMaxItemsWide items (items.map String.length) L).1)
        (findMaxItemsWide items (items.map String.length) L).2).length : Nat) : ℚ) L = true := by
  obtain ⟨h1, _, hw, hfit, _⟩ := findMaxItemsWide_spec items (items.map String.length) L hne
  have hrow := joinColumns_row_le items (findMaxItemsWide items (items.map String.length) L).1
    i (by omega)
  rw [hw, qLe_iff]
  have hgrid := hfit h2
  unfold gridFits at hgrid
  rw [qLe_iff] at hgrid
  exact le_trans (Nat.cast_le.mpr hrow) hgrid

/-- C3 amended: the line-budget admission checks that actually hold.
A newline-free (inline) rendering of a non-empty item list from
`formatObject` or `formatArray` satisfies
`keyLength + length ≤ maxLineLength`, and every row of the compact grid
fits `maxLineLength` whenever the packer chose at least two columns.
The original per-line bound with a single-overwide-leaf exception is
refuted by `C3_key_scalar_line_overflows`: a multi-line fallback line
can exceed the budget although each atomic token fits it. -/
theorem C3_inline_and_packed_rows_fit :
    (∀ (E : Eff) (items : List String) (depth keyLength : Nat) (nested ai : Bool),
        items ≠ [] →
        hasNL (formatObject E items depth nested keyLength ai) = false →
        qLe ((keyLength + (formatObject E items depth nested keyLength ai).length : Nat) : ℚ)
          E.maxLineLength = true) ∧
    (∀ (E : Eff) (items : List String) (depth keyLength : Nat) (nested ai : Bool),
        items ≠ [] →
        hasNL (formatArray E items depth nested keyLength ai) = false →
        qLe ((keyLength + (formatArray E items depth nested keyLength ai).length : Nat) : ℚ)
          E.maxLineLength = true) ∧
    (∀ (items : List String) (L : ℚ) (i : Nat), items ≠ [] →
        2 ≤ (findMaxItemsWide items (items.map String.length) L).1 →
        qLe (((joinColumns
            ((items.drop (i * (findMaxItemsWide items (items.map String.length) L).1)).take
              (findMaxItemsWide items (items.map String.length) L).1)
            (findMaxItemsWide items (items.map String.length) L).2).length : Nat) : ℚ) L
          = true) :=
  ⟨fun E items depth keyLength nested ai =>
      formatObject_no_newline_fits E items depth keyLength nested ai,
   fun E items depth keyLength nested ai =>
      formatArray_no_newline_fits E items depth keyLength nested ai,
   fun items L i => packed_row_fits items L i⟩

/-- C3 amended witness: the three parts applied to an inline object
entry, an inline two-item array, and row 0 of the 17-item packed grid
under budget 13. -/
theorem C3_inline_and_packed_rows_fit_witness :
    qLe ((0 + (formatObject (mkEff noOptions) ["\"a\": 1"] 0 false 0 true).length : Nat) : ℚ)
      (mkEff noOptions).maxLineLength = true ∧
    qLe ((0 + (formatArray (mkEff noOptions) ["1", "2"] 0 false 0 true).length : Nat) : ℚ)
      (mkEff noOptions).maxLineLength = true ∧
    qLe (((joinColumns
        ((items17.drop (0 *
            (findMaxItemsWide items17 (items17.map String.length) effML13.maxLineLength).1)).take
          (findMaxItemsWide items17 (items17.map String.length) effML13.maxLineLength).1)
        (findMaxItemsWide items17 (items17.map String.length) effML13.maxLineLength).2).length
        : Nat) : ℚ) effML13.maxLineLength = true :=
  ⟨C3_inline_and_packed_rows_fit.1 (mkEff noOptions) ["\"a\": 1"] 0 0 false true (by decide) (by rfl),
   C3_inline_and_packed_rows_fit.2.1 (mkEff noOptions) ["1", "2"] 0 0 false true (by decide) (by rfl),
   C3_inline_and_packed_rows_fit.2.2 items17 effML13.maxLineLength 0 (by decide) (by decide)⟩

end FabJson
